import Mathlib

/-!
Shallow embedding of the calculation and comparison engine of
`src/profit_calculator.py` (miner profitability tool).

The numeric values of the script (Python floats / pandas series) are modelled as
rationals `ℚ`; missing values (NaN) are modelled separately with `Option ℚ`
for the input-coercion layer. Each definition mirrors one block of the
source script:

* `enrichRow`       — the per-row Calculation Engine (lines 50-73)
* `compute`         — the engine mapped over the input table
* `roundHalfEven` / `roundTo` / `displayRow` — the display rounding
  (`display_df`, lines 76-89; pandas `round` rounds half to even)
* `metrics_config`  — the comparison metric list (lines 136-144)
* `compareRecord` / `ProfitCalc.compare` — the comparison loop (lines 149-185)
* `displayTable` / `compareAt` — the actual pipeline feeding the comparator:
  the code extracts `row_a = display_df.iloc[idx_a]` (lines 130-131), i.e.
  rows that were already rounded for display
* `Cell` / `Cell.toNumeric` / `computeValidated` — the `pd.to_numeric`
  coercion of the raw editable table (lines 52-53) together with NaN
  propagation through the engine (`FVal`, `enrichF`)
-/

namespace ProfitCalc

/-- Global settings from the sidebar (lines 13-19 of the source).
`fleet_size` is an integer-stepped input. -/
structure Settings where
  power_price : ℚ
  pool_fee_percent : ℚ
  hashprice : ℚ
  fleet_size : ℤ
deriving DecidableEq, Repr

/-- One row of the machine-configuration table, after numeric coercion
succeeded with non-missing values. -/
structure Row where
  model : String
  profile : String
  hashrate : ℚ
  power : ℚ
deriving DecidableEq, Repr

/-- A row enriched with the derived columns the Calculation Engine adds
(lines 56-73 of the source). -/
structure EnrichedRow where
  model : String
  profile : String
  hashrate : ℚ
  power : ℚ
  efficiency : ℚ
  rev_miner : ℚ
  cost_miner : ℚ
  profit_miner : ℚ
  fleet_profit : ℚ
deriving DecidableEq, Repr

/-- The Calculation Engine on one row (source lines 56-73):
efficiency guard, revenue, daily power cost, pool fee, cost, profit,
fleet profit. -/
def enrichRow (s : Settings) (r : Row) : EnrichedRow :=
  let efficiency := if r.hashrate > 0 then r.power / r.hashrate else 0
  let hashprice_per_th := s.hashprice / 1000
  let rev := r.hashrate * hashprice_per_th
  let daily_power_cost := r.power / 1000 * 24 * s.power_price
  let pool_fee_cost := rev * (s.pool_fee_percent / 100)
  let cost := daily_power_cost + pool_fee_cost
  let profit := rev - cost
  { model := r.model
    profile := r.profile
    hashrate := r.hashrate
    power := r.power
    efficiency := efficiency
    rev_miner := rev
    cost_miner := cost
    profit_miner := profit
    fleet_profit := profit * (s.fleet_size : ℚ) }

/-- The engine over the whole table: pandas column assignments act
row-wise and keep the index, i.e. a map over the rows. -/
def compute (s : Settings) (rows : List Row) : List EnrichedRow :=
  rows.map (enrichRow s)

/-- Round to the nearest integer, ties to even: the rounding used by
pandas / numpy `round`. -/
def roundHalfEven (q : ℚ) : ℤ :=
  let f := ⌊q⌋
  let r := q - (f : ℚ)
  if r < 1 / 2 then f
  else if 1 / 2 < r then f + 1
  else if f % 2 = 0 then f else f + 1

/-- Round to `d` decimal places, ties to even: `Series.round(d)`. -/
def roundTo (d : ℕ) (q : ℚ) : ℚ :=
  (roundHalfEven (q * (10 : ℚ) ^ d) : ℚ) / (10 : ℚ) ^ d

/-- The display formatting applied to `display_df` (source lines 87-89):
efficiency rounded to 1 decimal, the four money columns to 2 decimals;
model, profile, hashrate and power stay as computed. -/
def displayRow (e : EnrichedRow) : EnrichedRow :=
  { e with
    efficiency := roundTo 1 e.efficiency
    rev_miner := roundTo 2 e.rev_miner
    cost_miner := roundTo 2 e.cost_miner
    profit_miner := roundTo 2 e.profit_miner
    fleet_profit := roundTo 2 e.fleet_profit }

/-- The enriched table after the display rounding: `display_df`. -/
def displayTable (s : Settings) (rows : List Row) : List EnrichedRow :=
  (compute s rows).map displayRow

/-- Direction policy of a metric: which sign of difference is better. -/
inductive Direction where
  | higher
  | lower
deriving DecidableEq, Repr

/-- Whether the direction string of the source loop equals higher. -/
def Direction.isHigher : Direction → Bool
  | .higher => true
  | .lower => false

/-- One entry of `metrics_config`: a column name and its direction. -/
structure MetricDef where
  col : String
  better : Direction
deriving DecidableEq, Repr

/-- The fixed ordered metric list of the comparison (source lines 136-144). -/
def metrics_config : List MetricDef :=
  [ { col := "Hashrate (TH/s)", better := .higher }
  , { col := "Power (W)", better := .lower }
  , { col := "Efficiency (J/TH)", better := .lower }
  , { col := "Rev/Miner ($)", better := .higher }
  , { col := "Cost/Miner ($)", better := .lower }
  , { col := "Profit/Miner ($)", better := .higher }
  , { col := "Fleet Profit ($)", better := .higher } ]

/-- Look a metric column up in an enriched row: `row[metric]`. -/
def metricValue (col : String) (e : EnrichedRow) : ℚ :=
  if col = "Hashrate (TH/s)" then e.hashrate
  else if col = "Power (W)" then e.power
  else if col = "Efficiency (J/TH)" then e.efficiency
  else if col = "Rev/Miner ($)" then e.rev_miner
  else if col = "Cost/Miner ($)" then e.cost_miner
  else if col = "Profit/Miner ($)" then e.profit_miner
  else if col = "Fleet Profit ($)" then e.fleet_profit
  else 0

/-- The three outcome labels; in the source they are the colors
gray / green / red of the rendered row. -/
inductive Outcome where
  | better
  | worse
  | neutral
deriving DecidableEq, Repr

/-- The color logic of the loop (source lines 163-168):
`is_neutral = (diff == 0)` wins, then
`is_positive_outcome = (is_higher_better and diff > 0) or
(not is_higher_better and diff < 0)`, else worse. -/
def classify (is_higher_better : Bool) (diff : ℚ) : Outcome :=
  let is_positive_outcome :=
    (is_higher_better && decide (diff > 0)) ||
      (!is_higher_better && decide (diff < 0))
  let is_neutral := decide (diff = 0)
  if is_neutral then .neutral
  else if is_positive_outcome then .better
  else .worse

/-- One comparison row as appended to `comp_data_clean` /
`comp_data_display`, with the outcome label in place of the color. -/
structure ComparisonRecord where
  metric : String
  baseline : ℚ
  target : ℚ
  diff : ℚ
  pct_diff : ℚ
  outcome : Outcome
deriving DecidableEq, Repr

/-- One iteration of the comparison loop (source lines 149-185):
`diff = val_b - val_a`; `pct_diff = diff / val_a * 100` when
`val_a != 0`, else `0.0`. -/
def compareRecord (m : MetricDef) (a b : EnrichedRow) : ComparisonRecord :=
  let val_a := metricValue m.col a
  let val_b := metricValue m.col b
  let diff := val_b - val_a
  let pct_diff := if val_a ≠ 0 then diff / val_a * 100 else 0
  { metric := m.col
    baseline := val_a
    target := val_b
    diff := diff
    pct_diff := pct_diff
    outcome := classify m.better.isHigher diff }

/-- The whole comparison: one record per `metrics_config` entry, in order. -/
def compare (a b : EnrichedRow) : List ComparisonRecord :=
  metrics_config.map (fun m => compareRecord m a b)

/-- The pipeline the source actually runs for a selection:
`row_a = display_df.iloc[idx_a]`, `row_b = display_df.iloc[idx_b]`
(lines 130-131) — the comparator consumes the display-rounded table —
then the comparison loop. `none` when an index is out of range. -/
def compareAt (s : Settings) (rows : List Row) (idx_a idx_b : ℕ) :
    Option (List ComparisonRecord) :=
  match (displayTable s rows).get? idx_a, (displayTable s rows).get? idx_b with
  | some a, some b => some (compare a b)
  | _, _ => none

/-! ### The `pd.to_numeric` coercion layer and NaN propagation

The editable table can hold, in the hashrate / power columns, a numeric
value, a missing entry (pandas `NaN` / `None`), or — in an uncontrolled
frame — a non-numeric string. `pd.to_numeric` (source lines 52-53)
returns numbers and `NaN` unchanged and raises only on unparseable
strings. A float that may be `NaN` is modelled as `Option ℚ`, with
`none` for `NaN`; Python float arithmetic propagates `NaN`, and every
ordered comparison with `NaN` is `False`. -/

/-- A float that may be NaN (`none`). -/
abbrev FVal := Option ℚ

/-- Float addition with NaN propagation. -/
def fadd : FVal → FVal → FVal
  | some a, some b => some (a + b)
  | _, _ => none

/-- Float subtraction with NaN propagation. -/
def fsub : FVal → FVal → FVal
  | some a, some b => some (a - b)
  | _, _ => none

/-- Float multiplication with NaN propagation. -/
def fmul : FVal → FVal → FVal
  | some a, some b => some (a * b)
  | _, _ => none

/-- Float division with NaN propagation. Every division in the script is
guarded so that the divisor is a nonzero number; the zero-divisor case
of this model is never reached by the embedded code paths. -/
def fdiv : FVal → FVal → FVal
  | some a, some b => if b = 0 then none else some (a / b)
  | _, _ => none

/-- Compare a possibly-NaN float with a constant: comparisons with NaN are false. -/
def fgt (x : FVal) (c : ℚ) : Bool :=
  match x with
  | some a => decide (c < a)
  | none => false

/-- One cell of the raw hashrate / power columns before coercion. -/
inductive Cell where
  | num (q : ℚ)
  | nan
  | str (v : String)
deriving DecidableEq, Repr

/-- Coercion of one cell, as `pd.to_numeric` does it: numbers pass through, missing values
stay NaN, non-numeric strings raise `ValueError`. -/
def Cell.toNumeric : Cell → Except String FVal
  | .num q => .ok (some q)
  | .nan => .ok none
  | .str v => .error ("Unable to parse string " ++ v)

/-- Whether a cell makes `pd.to_numeric` raise. -/
def Cell.isBad : Cell → Bool
  | .str _ => true
  | _ => false

/-- A raw row of the editable table. -/
structure RawRow where
  model : String
  profile : String
  hashrate : Cell
  power : Cell
deriving DecidableEq, Repr

/-- An enriched row whose numeric fields may be NaN. -/
structure EnrichedF where
  hashrate : FVal
  power : FVal
  efficiency : FVal
  rev_miner : FVal
  cost_miner : FVal
  profit_miner : FVal
  fleet_profit : FVal
deriving DecidableEq, Repr

/-- The Calculation Engine on possibly-NaN inputs, mirroring
`enrichRow` with float semantics: a NaN hashrate fails the `> 0` guard,
so efficiency falls to the `else 0` branch; everywhere else NaN
propagates. -/
def enrichF (s : Settings) (h p : FVal) : EnrichedF :=
  let efficiency := if fgt h 0 then fdiv p h else some 0
  let rev := fmul h (some (s.hashprice / 1000))
  let daily_power_cost :=
    fmul (fmul (fdiv p (some 1000)) (some 24)) (some s.power_price)
  let pool_fee_cost := fmul rev (some (s.pool_fee_percent / 100))
  let cost := fadd daily_power_cost pool_fee_cost
  let profit := fsub rev cost
  { hashrate := h
    power := p
    efficiency := efficiency
    rev_miner := rev
    cost_miner := cost
    profit_miner := profit
    fleet_profit := fmul profit (some (s.fleet_size : ℚ)) }

/-- Whether an `Except` value is a success, as a plain Boolean. -/
def isOkE {α : Type} : Except String α → Bool
  | .ok _ => true
  | .error _ => false

/-- Coercion of one whole column: the first unparseable string
raises, otherwise the coerced column is returned. -/
def mapToNumeric : List Cell → Except String (List FVal)
  | [] => .ok []
  | c :: cs =>
    match c.toNumeric with
    | .error e => .error e
    | .ok v =>
      match mapToNumeric cs with
      | .error e => .error e
      | .ok vs => .ok (v :: vs)

/-- The engine run on the raw table, coercion included
(source lines 50-73): coerce the hashrate column, then the power
column — raising on the first unparseable string — then derive the
enriched columns row by row. -/
def computeValidated (s : Settings) (rows : List RawRow) :
    Except String (List EnrichedF) :=
  match mapToNumeric (rows.map RawRow.hashrate) with
  | .error e => .error e
  | .ok hs =>
    match mapToNumeric (rows.map RawRow.power) with
    | .error e => .error e
    | .ok ps => .ok ((hs.zip ps).map (fun hp => enrichF s hp.1 hp.2))

/-! ### Concrete sample data (the end-to-end example of the spec) -/

/-- The default sidebar settings of the source script. -/
def s0 : Settings :=
  { power_price := 0.05, pool_fee_percent := 1.5, hashprice := 60, fleet_size := 100 }

/-- The default seeded row (source line 24). -/
def rowS19 : Row :=
  { model := "S19 XP", profile := "Normal", hashrate := 140, power := 3010 }

/-- Row B of the end-to-end example of the spec. -/
def rowB : Row :=
  { model := "B", profile := "Normal", hashrate := 200, power := 3500 }

/-- A row with zero hashrate, exercising the efficiency guard. -/
def rowZero : Row :=
  { model := "Z", profile := "Off", hashrate := 0, power := 100 }

/-- A row whose efficiency `10/3` is changed by display rounding. -/
def rX : Row :=
  { model := "X", profile := "P", hashrate := 3, power := 10 }

/-- A raw row with a missing hashrate cell. -/
def rawMissing : RawRow :=
  { model := "S19 XP", profile := "Normal", hashrate := Cell.nan, power := Cell.num 3010 }

/-- The enriched rows of the end-to-end example of the spec. -/
def eA : EnrichedRow := enrichRow s0 rowS19

/-- Second enriched example row. -/
def eB : EnrichedRow := enrichRow s0 rowB

/-- A small fully explicit enriched row used as a witness input. -/
def eW : EnrichedRow :=
  { model := "M", profile := "P", hashrate := 1, power := 2, efficiency := 3,
    rev_miner := 4, cost_miner := 5, profit_miner := 6, fleet_profit := 7 }

/-! ## Theorems -/

/-- C1: for every input row and settings the engine computes the derived
financial fields by exactly the spec formulas: revenue per unit is
`hashrate * (hashprice / 1000)`; cost per unit is the power cost
`(power / 1000) * 24 * powerPrice` plus the pool fee cost
`revenuePerUnit * (poolFeePercent / 100)`; profit per unit is revenue
minus cost; fleet profit is profit per unit times the fleet size. -/
theorem C1_financial_formulas (s : Settings) (r : Row) :
    (enrichRow s r).rev_miner = r.hashrate * (s.hashprice / 1000) ∧
    (enrichRow s r).cost_miner =
      r.power / 1000 * 24 * s.power_price +
        (enrichRow s r).rev_miner * (s.pool_fee_percent / 100) ∧
    (enrichRow s r).profit_miner =
      (enrichRow s r).rev_miner - (enrichRow s r).cost_miner ∧
    (enrichRow s r).fleet_profit =
      (enrichRow s r).profit_miner * (s.fleet_size : ℚ) :=
  ⟨rfl, rfl, rfl, rfl⟩

/-- C2: the engine defines efficiency as `power / hashrate` when
`hashrate > 0` and as `0` when `hashrate = 0`; the computation is a
total function on rationals, so no error and no infinity can arise. -/
theorem C2_efficiency_guard (s : Settings) (r : Row) :
    (r.hashrate = 0 → (enrichRow s r).efficiency = 0) ∧
    (0 < r.hashrate → (enrichRow s r).efficiency = r.power / r.hashrate) := by
  constructor
  · intro h
    simp [enrichRow, h]
  · intro h
    simp [enrichRow, h]

/-- Witness for C2 at the default settings: the zero-hashrate row gets
efficiency `0`, the seeded S19 XP row gets `3010 / 140`. -/
theorem C2_efficiency_guard_witness :
    (enrichRow s0 rowZero).efficiency = 0 ∧
    (enrichRow s0 rowS19).efficiency = 3010 / 140 :=
  ⟨(C2_efficiency_guard s0 rowZero).1 rfl,
   (C2_efficiency_guard s0 rowS19).2 (by norm_num [rowS19])⟩

/-- C8: `compute` yields exactly one enriched row per input row, the
i-th output comes from the i-th input (order and position preserved),
and the empty table yields the empty result rather than an error. -/
theorem C8_compute_shape (s : Settings) (rows : List Row) :
    (compute s rows).length = rows.length ∧
    (∀ i : ℕ, (compute s rows)[i]? = rows[i]?.map (enrichRow s)) ∧
    compute s ([] : List Row) = [] :=
  ⟨List.length_map _ _, fun i => by simp [compute], rfl⟩

/-- C10: comparing an enriched row with itself gives, for every record
of the comparison, difference `0`, percent difference `0`, and a
neutral outcome. -/
theorem C10_self_compare (e : EnrichedRow) (c : ComparisonRecord)
    (hc : c ∈ compare e e) :
    c.diff = 0 ∧ c.pct_diff = 0 ∧ c.outcome = Outcome.neutral := by
  rcases List.mem_map.mp hc with ⟨m, _, rfl⟩
  refine ⟨?_, ?_, ?_⟩ <;> simp [compareRecord, classify]

/-- Witness for C10: the hashrate record of `compare eW eW`. -/
theorem C10_self_compare_witness :
    (compareRecord { col := "Hashrate (TH/s)", better := Direction.higher } eW eW).diff = 0 ∧
    (compareRecord { col := "Hashrate (TH/s)", better := Direction.higher } eW eW).pct_diff = 0 ∧
    (compareRecord { col := "Hashrate (TH/s)", better := Direction.higher } eW eW).outcome =
      Outcome.neutral :=
  C10_self_compare eW _ (List.mem_map.mpr ⟨_, by simp [metrics_config], rfl⟩)

/-- C3: every record of a comparison has `difference = target - baseline`
and `percentDifference = difference / baseline * 100`, with the percent
difference defined as `0` whenever the baseline value is `0`; the
comparator is a total function, so no division error can arise. -/
theorem C3_percent_difference (a b : EnrichedRow) (c : ComparisonRecord)
    (hc : c ∈ compare a b) :
    c.diff = c.target - c.baseline ∧
    (c.baseline = 0 → c.pct_diff = 0) ∧
    (c.baseline ≠ 0 → c.pct_diff = c.diff / c.baseline * 100) := by
  rcases List.mem_map.mp hc with ⟨m, _, rfl⟩
  refine ⟨rfl, ?_, ?_⟩
  · intro h
    simp only [compareRecord] at h ⊢
    simp [h]
  · intro h
    simp only [compareRecord] at h ⊢
    simp [h]

/-- Witness for C3: the power record of the example comparison. -/
theorem C3_percent_difference_witness :
    (compareRecord { col := "Power (W)", better := Direction.lower } eA eB).diff =
      (compareRecord { col := "Power (W)", better := Direction.lower } eA eB).target -
        (compareRecord { col := "Power (W)", better := Direction.lower } eA eB).baseline ∧
    ((compareRecord { col := "Power (W)", better := Direction.lower } eA eB).baseline = 0 →
      (compareRecord { col := "Power (W)", better := Direction.lower } eA eB).pct_diff = 0) ∧
    ((compareRecord { col := "Power (W)", better := Direction.lower } eA eB).baseline ≠ 0 →
      (compareRecord { col := "Power (W)", better := Direction.lower } eA eB).pct_diff =
        (compareRecord { col := "Power (W)", better := Direction.lower } eA eB).diff /
          (compareRecord { col := "Power (W)", better := Direction.lower } eA eB).baseline * 100) :=
  C3_percent_difference eA eB _ (List.mem_map.mpr ⟨_, by simp [metrics_config], rfl⟩)

/-- An outcome label is one of the three values. -/
theorem outcome_total (o : Outcome) :
    o = Outcome.neutral ∨ o = Outcome.better ∨ o = Outcome.worse := by
  cases o <;> simp

/-- The color logic, characterised: neutral exactly on zero difference,
better exactly on a nonzero difference in the good direction of the metric,
worse otherwise. -/
theorem classify_cases (hb : Bool) (d : ℚ) :
    (classify hb d = Outcome.neutral ↔ d = 0) ∧
    (classify hb d = Outcome.better ↔
      d ≠ 0 ∧ ((hb = true ∧ 0 < d) ∨ (hb = false ∧ d < 0))) ∧
    (classify hb d = Outcome.worse ↔
      d ≠ 0 ∧ ¬((hb = true ∧ 0 < d) ∨ (hb = false ∧ d < 0))) := by
  by_cases hd : d = 0
  · subst hd
    cases hb <;> simp [classify]
  · rcases lt_trichotomy d 0 with h | h | h
    · cases hb <;>
        simp [classify, hd, h, lt_asymm h, le_of_lt h, not_lt_of_lt]
    · exact absurd h hd
    · cases hb <;>
        simp [classify, hd, h, lt_asymm h, le_of_lt h, not_lt_of_lt]

/-- C4: outcome classification of every comparison record: neutral iff
the difference is `0`; otherwise better iff the direction is higher and
the difference positive, or the direction is lower and the difference
negative; otherwise worse — and the three labels are mutually
exclusive and exhaustive over all rational differences. -/
theorem C4_outcome_classification (m : MetricDef) (a b : EnrichedRow) :
    ((compareRecord m a b).outcome = Outcome.neutral ↔ (compareRecord m a b).diff = 0) ∧
    ((compareRecord m a b).outcome = Outcome.better ↔
      (compareRecord m a b).diff ≠ 0 ∧
        ((m.better = Direction.higher ∧ 0 < (compareRecord m a b).diff) ∨
          (m.better = Direction.lower ∧ (compareRecord m a b).diff < 0))) ∧
    ((compareRecord m a b).outcome = Outcome.worse ↔
      (compareRecord m a b).diff ≠ 0 ∧
        ¬((m.better = Direction.higher ∧ 0 < (compareRecord m a b).diff) ∨
          (m.better = Direction.lower ∧ (compareRecord m a b).diff < 0))) ∧
    ((compareRecord m a b).outcome = Outcome.neutral ∨
      (compareRecord m a b).outcome = Outcome.better ∨
      (compareRecord m a b).outcome = Outcome.worse) := by
  cases hm : m.better with
  | higher =>
    have key : (compareRecord m a b).outcome =
        classify true ((compareRecord m a b).diff) := by
      simp [compareRecord, hm, Direction.isHigher]
    have h := classify_cases true ((compareRecord m a b).diff)
    rw [key]
    simp only [hm]
    exact ⟨by simpa using h.1,
      by rw [h.2.1]; simp,
      by rw [h.2.2]; simp,
      outcome_total _⟩
  | lower =>
    have key : (compareRecord m a b).outcome =
        classify false ((compareRecord m a b).diff) := by
      simp [compareRecord, hm, Direction.isHigher]
    have h := classify_cases false ((compareRecord m a b).diff)
    rw [key]
    simp only [hm]
    exact ⟨by simpa using h.1,
      by rw [h.2.1]; simp,
      by rw [h.2.2]; simp,
      outcome_total _⟩

/-- C5: the comparison uses the fixed ordered list of exactly these
seven metrics with these direction policies (spec names in source
column spelling: hashrate, power, efficiency, revenue per unit, cost
per unit, profit per unit, fleet profit), and produces one record per
metric in exactly that order. -/
theorem C5_metric_list (a b : EnrichedRow) :
    metrics_config.map (fun m => (m.col, m.better)) =
      [("Hashrate (TH/s)", Direction.higher), ("Power (W)", Direction.lower),
        ("Efficiency (J/TH)", Direction.lower), ("Rev/Miner ($)", Direction.higher),
        ("Cost/Miner ($)", Direction.lower), ("Profit/Miner ($)", Direction.higher),
        ("Fleet Profit ($)", Direction.higher)] ∧
    (compare a b).map (fun c => c.metric) =
      ["Hashrate (TH/s)", "Power (W)", "Efficiency (J/TH)", "Rev/Miner ($)",
        "Cost/Miner ($)", "Profit/Miner ($)", "Fleet Profit ($)"] ∧
    (compare a b).length = 7 ∧
    (∀ i : ℕ, (compare a b)[i]? = metrics_config[i]?.map (fun m => compareRecord m a b)) :=
  ⟨rfl, rfl, rfl, fun i => by simp [compare]⟩

/-- Flip better and worse, keep neutral: how outcome labels behave when
baseline and target are exchanged. -/
def Outcome.invert : Outcome → Outcome
  | .better => .worse
  | .worse => .better
  | .neutral => .neutral

/-- Negating the difference inverts the color logic. -/
theorem classify_invert (hb : Bool) (d : ℚ) :
    classify hb (-d) = (classify hb d).invert := by
  by_cases hd : d = 0
  · subst hd
    cases hb <;> simp [classify, Outcome.invert]
  · rcases lt_trichotomy d 0 with h | h | h
    · cases hb <;>
        simp [classify, Outcome.invert, hd, h, lt_asymm h, neg_eq_zero,
          neg_pos, neg_lt_zero]
    · exact absurd h hd
    · cases hb <;>
        simp [classify, Outcome.invert, hd, h, lt_asymm h, neg_eq_zero,
          neg_pos, neg_lt_zero]

/-- C7: swapping baseline and target negates the difference of every record
and inverts its outcome label (better and worse exchange, neutral stays
neutral), position by position. -/
theorem C7_comparator_symmetry (a b : EnrichedRow) (i : ℕ) :
    ((compare a b)[i]?.map (fun c => c.diff) =
      (compare b a)[i]?.map (fun c => -c.diff)) ∧
    ((compare a b)[i]?.map (fun c => c.outcome) =
      (compare b a)[i]?.map (fun c => c.outcome.invert)) := by
  have point : ∀ m : MetricDef,
      (compareRecord m a b).diff = -(compareRecord m b a).diff ∧
      (compareRecord m a b).outcome = (compareRecord m b a).outcome.invert := by
    intro m
    constructor
    · simp [compareRecord]
    · have key : (metricValue m.col b - metricValue m.col a) =
          -(metricValue m.col a - metricValue m.col b) := by ring
      show classify m.better.isHigher (metricValue m.col b - metricValue m.col a) =
        (classify m.better.isHigher (metricValue m.col a - metricValue m.col b)).invert
      rw [key, classify_invert]
  constructor <;>
  · simp only [compare, List.getElem?_map]
    cases h : metrics_config[i]? with
    | none => simp
    | some m => simp [(point m).1, (point m).2]

/-- C6 counterexample: for the row with hashrate 3 and power 10 under
the default settings, the efficiency baseline value the comparator
actually consumes (from `display_df`) is the rounded `33/10`, while the
unrounded engine output is `10/3` — so the values entering the
comparison records are not the unrounded engine outputs. -/
theorem C6_counterexample :
    ((compareAt s0 [rX] 0 0).bind (fun l => l[2]?)).map (fun c => c.baseline) =
      some (33 / 10) ∧
    (enrichRow s0 rX).efficiency = 10 / 3 ∧
    (33 / 10 : ℚ) ≠ 10 / 3 := by
  refine ⟨?_, ?_, by norm_num⟩
  · norm_num [compareAt, displayTable, compute, displayRow, enrichRow, compare,
      metrics_config, compareRecord, metricValue, roundTo, roundHalfEven, rX, s0]
    rw [if_neg (by decide), if_neg (by decide)]
  · norm_num [enrichRow, rX]

/-- C6 amended: display rounding happens before the comparison — the
comparator consumes the display-rounded rows (`row_a/row_b` are taken
from `display_df`), so the baseline and target of every record are the
hashrate and power as computed but the efficiency rounded to 1 decimal
and the money fields rounded to 2 decimals; the rounded comparator
inputs are fixed by the pipeline `compareAt`. -/
theorem C6_rounded_comparator_inputs (s : Settings) (ra rb : Row) :
    compareAt s [ra, rb] 0 1 =
      some (compare (displayRow (enrichRow s ra)) (displayRow (enrichRow s rb))) ∧
    (compare (displayRow (enrichRow s ra)) (displayRow (enrichRow s rb))).map
        (fun c => (c.baseline, c.target)) =
      [((enrichRow s ra).hashrate, (enrichRow s rb).hashrate),
        ((enrichRow s ra).power, (enrichRow s rb).power),
        (roundTo 1 (enrichRow s ra).efficiency, roundTo 1 (enrichRow s rb).efficiency),
        (roundTo 2 (enrichRow s ra).rev_miner, roundTo 2 (enrichRow s rb).rev_miner),
        (roundTo 2 (enrichRow s ra).cost_miner, roundTo 2 (enrichRow s rb).cost_miner),
        (roundTo 2 (enrichRow s ra).profit_miner, roundTo 2 (enrichRow s rb).profit_miner),
        (roundTo 2 (enrichRow s ra).fleet_profit, roundTo 2 (enrichRow s rb).fleet_profit)] :=
  ⟨rfl, rfl⟩

/-- Coercing a column succeeds exactly when no cell is a non-numeric
string. -/
theorem mapToNumeric_ok (cells : List Cell) :
    isOkE (mapToNumeric cells) = cells.all (fun c => ! c.isBad) := by
  induction cells with
  | nil => rfl
  | cons c cs ih =>
    cases c with
    | num q =>
      cases h : mapToNumeric cs with
      | ok v =>
        rw [h] at ih
        have step : mapToNumeric (Cell.num q :: cs) = .ok (some q :: v) := by
          simp [mapToNumeric, Cell.toNumeric, h]
        rw [List.all_cons, step]
        exact ih
      | error e =>
        rw [h] at ih
        have step : mapToNumeric (Cell.num q :: cs) = .error e := by
          simp [mapToNumeric, Cell.toNumeric, h]
        rw [List.all_cons, step]
        exact ih
    | nan =>
      cases h : mapToNumeric cs with
      | ok v =>
        rw [h] at ih
        have step : mapToNumeric (Cell.nan :: cs) = .ok (none :: v) := by
          simp [mapToNumeric, Cell.toNumeric, h]
        rw [List.all_cons, step]
        exact ih
      | error e =>
        rw [h] at ih
        have step : mapToNumeric (Cell.nan :: cs) = .error e := by
          simp [mapToNumeric, Cell.toNumeric, h]
        rw [List.all_cons, step]
        exact ih
    | str v => rfl

/-- Checking both columns cell-wise is checking rows row-wise. -/
theorem raw_all_cols (rows : List RawRow) :
    ((rows.map RawRow.hashrate).all (fun c => ! c.isBad) &&
        (rows.map RawRow.power).all (fun c => ! c.isBad)) =
      rows.all (fun r => ! r.hashrate.isBad && ! r.power.isBad) := by
  induction rows with
  | nil => rfl
  | cons r rs ih =>
    simp only [List.map_cons, List.all_cons, ← ih]
    cases (! r.hashrate.isBad) <;> cases (! r.power.isBad) <;>
      cases (rs.map RawRow.hashrate).all (fun c => ! c.isBad) <;> simp

/-- C9 amended: the engine run on the raw table fails fast exactly on
non-numeric strings — coercion succeeds if and only if no hashrate or
power cell of any row is a non-numeric string. In particular a missing
(NaN) cell is not an error: it passes `pd.to_numeric` unchanged. -/
theorem C9_coercion_fail_fast (s : Settings) (rows : List RawRow) :
    isOkE (computeValidated s rows) =
      rows.all (fun r => ! r.hashrate.isBad && ! r.power.isBad) := by
  rw [← raw_all_cols]
  unfold computeValidated
  cases h1 : mapToNumeric (rows.map RawRow.hashrate) with
  | error e =>
    have t1 := mapToNumeric_ok (rows.map RawRow.hashrate)
    rw [h1] at t1
    simp [isOkE, ← t1]
  | ok hs =>
    have t1 := mapToNumeric_ok (rows.map RawRow.hashrate)
    rw [h1] at t1
    cases h2 : mapToNumeric (rows.map RawRow.power) with
    | error e =>
      have t2 := mapToNumeric_ok (rows.map RawRow.power)
      rw [h2] at t2
      simp [isOkE, ← t1, ← t2]
    | ok ps =>
      have t2 := mapToNumeric_ok (rows.map RawRow.power)
      rw [h2] at t2
      simp [isOkE, ← t1, ← t2]

/-- C9 counterexample: a row whose hashrate cell is missing is not
rejected — the engine returns an enriched row for it, with NaN
propagated through the financial fields and efficiency silently set to
`0` (the NaN hashrate fails the `> 0` guard). -/
theorem C9_counterexample :
    computeValidated s0 [rawMissing] =
      .ok [{ hashrate := none, power := some 3010, efficiency := some 0,
             rev_miner := none, cost_miner := none, profit_miner := none,
             fleet_profit := none }] := rfl

end ProfitCalc
